import Mathlib

/-!
Shallow embedding of `kivy/selection.py` (the `Selection` mixin).

Proxies are identified by a pair (generation, index): `delete_cache` (run on
every data replacement) makes subsequently created proxies fresh objects, so
the generation counter is bumped on every data replacement.  The per-proxy
mutable boolean `is_selected` is modelled by the `flagged` list: a proxy's
`is_selected` attribute is true exactly when the proxy is in `flagged`.

`on_selection_change` dispatches are modelled by the `events` counter.
-/

/-- Selection modes, from the `selection_mode` OptionProperty
(`'none'/'single'/'multiple'`). -/
inductive SelMode where
  | none
  | single
  | multiple
deriving DecidableEq, Repr

/-- A proxy object (`Proxy()` instance created by `create_proxy`).  `gen` is
the cache generation it was created in, `index` is the data index stored into
`item_args['index']` and read back as `proxy.index`. -/
structure Proxy where
  gen : Nat
  index : Nat
deriving DecidableEq, Repr

/-- A data item, covering the shapes `set_data_item_selection` and
`create_proxy` distinguish by runtime introspection:
* `selectable b` — a `SelectableDataItem` whose `is_selected` is `b`;
* `dictWith b` — a `dict` containing key `'is_selected'` with value `b`;
* `dictWithout` — a `dict` without that key;
* `objAttr b` — an object with a plain `is_selected` attribute `b`;
* `objFun r` — an object whose `is_selected` is a function/method returning `r`;
* `bare v` — an object with no `is_selected` attribute at all;
* `proxyItem p b` — a `Proxy` object stored into `data` by `cut_to_sel`
  (`self.data = self.selection`); `b` snapshots the proxy's `is_selected`
  attribute at the time it was stored (the live aliasing of that attribute is
  not modelled; it is only observable with `propagate_selection_to_data`
  enabled after a `cut_to_sel`, which no modelled history performs). -/
inductive Item where
  | selectable (b : Bool)
  | dictWith (b : Bool)
  | dictWithout
  | objAttr (b : Bool)
  | objFun (r : Bool)
  | bare (v : Nat)
  | proxyItem (p : Proxy) (b : Bool)
deriving DecidableEq, Repr

/-- The state of a `Selection` instance.  `data`, `selection`,
`selection_mode`, `allow_empty_selection`, `selection_limit` and
`propagate_selection_to_data` are the properties of the class; `flagged` holds
the proxies whose `is_selected` attribute is currently true; `gen` is the
proxy-cache generation (bumped by `delete_cache`); `events` counts
`on_selection_change` dispatches. -/
structure SelState where
  data : List Item
  selection : List Proxy
  flagged : List Proxy
  selection_mode : SelMode
  allow_empty_selection : Bool
  selection_limit : Int
  propagate_selection_to_data : Bool
  gen : Nat
  events : Nat
deriving DecidableEq, Repr

/-- `self.dispatch('on_selection_change')`. -/
def dispatch (s : SelState) : SelState :=
  { s with events := s.events + 1 }

/-- `get_data_item(index)`: `None` when out of range, else `data[index]`
(only ever called with a non-negative index in the model). -/
def get_data_item (s : SelState) (index : Nat) : Option Item :=
  s.data.get? index

/-- `Modelled from the spec:` the source calls `self.get_proxy(0)` in
`check_for_empty_selection` but never defines `get_proxy`; per the spec it
returns the cached proxy for the index, creating one on first access, and
null when the index is out of bounds.  With `propagate_selection_to_data`
false (as in every modelled history) proxy creation has no selection side
effects, so `get_proxy` is the pure lookup below: the proxy of the current
cache generation for an in-bounds index. -/
def get_proxy (s : SelState) (index : Nat) : Option Proxy :=
  if index < s.data.length then Option.some ⟨s.gen, index⟩ else Option.none

/-- `proxy.is_selected = True`: set-like insertion into `flagged`. -/
def insertFlag (p : Proxy) (l : List Proxy) : List Proxy :=
  if p ∈ l then l else p :: l

/-- `set_data_item_selection(item, value)` (lines 302-312).  A dict gets the
key written even when it was absent; a callable `is_selected` is invoked and
its result discarded, writing nothing (the call itself is modelled as pure);
an item with no `is_selected` attribute is left untouched. -/
def set_data_item_selection (item : Item) (value : Bool) : Item :=
  match item with
  | Item.selectable _ => Item.selectable value
  | Item.dictWith _ => Item.dictWith value
  | Item.dictWithout => Item.dictWith value
  | Item.objAttr _ => Item.objAttr value
  | Item.objFun r => Item.objFun r
  | Item.bare v => Item.bare v
  | Item.proxyItem p _ => Item.proxyItem p value

/-- `select_item_proxy(proxy)` (lines 314-321): `proxy.select()` is view
behaviour with no modelled effect; sets the proxy's `is_selected`, appends it
to `selection`, and propagates to the data item when enabled. -/
def select_item_proxy (s : SelState) (p : Proxy) : SelState :=
  let s1 : SelState :=
    { s with flagged := insertFlag p s.flagged,
             selection := s.selection ++ [p] }
  if s1.propagate_selection_to_data then
    match get_data_item s1 p.index with
    | Option.some data_item =>
        { s1 with data := s1.data.set p.index (set_data_item_selection data_item true) }
    | Option.none => s1
  else s1

/-- `deselect_item_proxy(proxy)` (lines 341-348): clears the proxy's
`is_selected`, removes the first occurrence from `selection`
(`list.remove`), and propagates to the data item when enabled. -/
def deselect_item_proxy (s : SelState) (p : Proxy) : SelState :=
  let s1 : SelState :=
    { s with flagged := s.flagged.erase p,
             selection := s.selection.erase p }
  if s1.propagate_selection_to_data then
    match get_data_item s1 p.index with
    | Option.some data_item =>
        { s1 with data := s1.data.set p.index (set_data_item_selection data_item false) }
    | Option.none => s1
  else s1

/-- `for selected_proxy in self.selection: self.deselect_item_proxy(...)`
with Python list-iterator semantics: the iterator keeps a position counter
while `deselect_item_proxy` removes the current element from the live list,
so every other element is skipped.  `i` is the iterator position and `fuel`
(initially the list length) bounds the loop. -/
def deselect_loop (s : SelState) (i : Nat) (fuel : Nat) : SelState :=
  match fuel with
  | 0 => s
  | Nat.succ fuel =>
    match s.selection.get? i with
    | Option.none => s
    | Option.some p => deselect_loop (deselect_item_proxy s p) (i + 1) fuel

/-- The first statement block of the `proxy_instance not in self.selection`
branch of `handle_selection` (lines 265-268): in `none`/`single` mode a
non-empty previous selection is deselected by the (skipping) loop. -/
def clear_selection_for_mode (s : SelState) : SelState :=
  if (s.selection_mode = SelMode.none ∨ s.selection_mode = SelMode.single)
      ∧ 0 < s.selection.length then
    deselect_loop s 0 s.selection.length
  else s

/-- The `proxy_instance not in self.selection` branch of `handle_selection`
(lines 264-281): clear the previous selection in `none`/`single` mode, then
select subject to the mode / `allow_empty_selection` / `selection_limit`
policy. -/
def handle_select_branch (s : SelState) (p : Proxy) : SelState :=
  let s2 : SelState := clear_selection_for_mode s
  if s2.selection_mode ≠ SelMode.none then
    if s2.selection_mode = SelMode.multiple then
      if s2.allow_empty_selection then
        if s2.selection_limit < 0 then
          select_item_proxy s2 p
        else
          if (s2.selection.length : Int) < s2.selection_limit then
            select_item_proxy s2 p
          else s2
      else select_item_proxy s2 p
    else select_item_proxy s2 p
  else s2

/-- `check_for_empty_selection()` (lines 365-371).  The inner
`self.handle_selection(proxy)` runs with the default `hold_dispatch=False`,
and since it is only reached when `selection` is empty the proxy is not in
`selection`, so that call is exactly `handle_select_branch` followed by a
dispatch. -/
def check_for_empty_selection (s : SelState) : SelState :=
  if s.allow_empty_selection = false ∧ s.selection.length = 0 then
    match get_proxy s 0 with
    | Option.some proxy => dispatch (handle_select_branch s proxy)
    | Option.none => s
  else s

/-- The `else` branch of `handle_selection` (lines 282-291): deselect the
proxy, then (outside `none` mode) re-apply the empty-selection policy. -/
def handle_deselect_branch (s : SelState) (p : Proxy) : SelState :=
  let s2 : SelState := deselect_item_proxy s p
  if s2.selection_mode ≠ SelMode.none then check_for_empty_selection s2 else s2

/-- `handle_selection(proxy_instance, hold_dispatch=False)` (lines 263-294). -/
def handle_selection (s : SelState) (p : Proxy) (hold_dispatch : Bool) : SelState :=
  let s1 : SelState :=
    if p ∉ s.selection then handle_select_branch s p
    else handle_deselect_branch s p
  if hold_dispatch then s1 else dispatch s1

/-- `select_list(proxies, extend=True)` (lines 323-339): assigning
`self.selection = []` fires no bound handler (nothing is bound to
`selection`), then each proxy is toggled with `hold_dispatch=True`, then one
dispatch. -/
def select_list (s : SelState) (proxies : List Proxy) (extend : Bool) : SelState :=
  let s1 : SelState := if extend then s else { s with selection := [] }
  dispatch (proxies.foldl (fun t p => handle_selection t p true) s1)

/-- `deselect_list(proxies)` (lines 350-354). -/
def deselect_list (s : SelState) (proxies : List Proxy) : SelState :=
  dispatch (proxies.foldl (fun t p => handle_selection t p true) s)

/-- `initialize_selection()` (lines 358-363): clears `selection` (without
touching any proxy's `is_selected` flag), dispatching only when it was
non-empty, then applies the empty-selection policy. -/
def initialize_selection (s : SelState) : SelState :=
  let s1 : SelState :=
    if 0 < s.selection.length then dispatch { s with selection := [] } else s
  check_for_empty_selection s1

/-- `update_for_new_data()` (lines 259-261): `delete_cache` (modelled as a
generation bump — all subsequently created proxies are fresh objects) then
`initialize_selection`. -/
def update_for_new_data (s : SelState) : SelState :=
  initialize_selection { s with gen := s.gen + 1 }

/-- Assigning `self.data = items`: the `data` binding fires
`update_for_new_data`. -/
def set_data (s : SelState) (items : List Item) : SelState :=
  update_for_new_data { s with data := items }

/-- `selection_mode_changed()` (lines 186-191), the handler bound to
`selection_mode`. -/
def selection_mode_changed (s : SelState) : SelState :=
  if s.selection_mode = SelMode.none then
    deselect_loop s 0 s.selection.length
  else check_for_empty_selection s

/-- Assigning `self.selection_mode = m`: a kivy property dispatches its bound
handler only when the value actually changes. -/
def set_selection_mode (s : SelState) (m : SelMode) : SelState :=
  if m = s.selection_mode then s
  else selection_mode_changed { s with selection_mode := m }

/-- Assigning `self.allow_empty_selection = b`: bound to
`check_for_empty_selection`, dispatched only on change. -/
def set_allow_empty_selection (s : SelState) (b : Bool) : SelState :=
  if b = s.allow_empty_selection then s
  else check_for_empty_selection { s with allow_empty_selection := b }

/-- Assigning `self.selection_limit = n` (no handler is bound to it). -/
def set_selection_limit (s : SelState) (n : Int) : SelState :=
  { s with selection_limit := n }

/-- `min(...)` over a non-empty list of indices (callers guard emptiness). -/
def list_min : List Nat → Nat
  | [] => 0
  | x :: xs => xs.foldl Nat.min x

/-- `max(...)` over a non-empty list of indices (callers guard emptiness). -/
def list_max : List Nat → Nat
  | [] => 0
  | x :: xs => xs.foldl Nat.max x

/-- `trim_left_of_sel()` (lines 373-379); the data assignment fires the
data-replacement lifecycle. -/
def trim_left_of_sel (s : SelState) : SelState :=
  if 0 < s.selection.length then
    set_data s (s.data.drop (list_min (s.selection.map Proxy.index)))
  else s

/-- `trim_right_of_sel()` (lines 381-387). -/
def trim_right_of_sel (s : SelState) : SelState :=
  if 0 < s.selection.length then
    set_data s (s.data.take (list_max (s.selection.map Proxy.index) + 1))
  else s

/-- `trim_to_sel()` (lines 389-398). -/
def trim_to_sel (s : SelState) : SelState :=
  if 0 < s.selection.length then
    set_data s ((s.data.take (list_max (s.selection.map Proxy.index) + 1)).drop
      (list_min (s.selection.map Proxy.index)))
  else s

/-- `cut_to_sel()` (lines 400-405): `self.data = self.selection` stores the
selected Proxy objects themselves into `data` (the ListProperty assignment
copies the list), then the data binding fires the replacement lifecycle.
Each stored proxy's `is_selected` attribute is snapshotted. -/
def cut_to_sel (s : SelState) : SelState :=
  if 0 < s.selection.length then
    set_data s (s.selection.map (fun p => Item.proxyItem p (decide (p ∈ s.flagged))))
  else s

/-- `create_proxy(index)` (lines 204-251).  The external `args_converter` and
the view machinery (`proxy_instance.bind`, children bindings) have no effect
on the modelled state; the `Exception` raised for an item with no usable
`is_selected` is modelled as `Except.error` carrying the source's message. -/
def create_proxy (s : SelState) (index : Nat) :
    Except String (Option Proxy × SelState) :=
  match get_data_item s index with
  | Option.none => Except.ok (Option.none, s)
  | Option.some item =>
    let proxy_instance : Proxy := ⟨s.gen, index⟩
    if s.propagate_selection_to_data then
      match item with
      | Item.selectable b =>
          Except.ok (Option.some proxy_instance,
            if b then handle_selection s proxy_instance false else s)
      | Item.dictWith b =>
          Except.ok (Option.some proxy_instance,
            if b then handle_selection s proxy_instance false else s)
      | Item.dictWithout =>
          Except.error ("ListAdapter: unselectable data item for " ++ toString index)
      | Item.objAttr b =>
          Except.ok (Option.some proxy_instance,
            if b then handle_selection s proxy_instance false else s)
      | Item.objFun r =>
          Except.ok (Option.some proxy_instance,
            if r then handle_selection s proxy_instance false else s)
      | Item.bare _ =>
          Except.error ("ListAdapter: unselectable data item for " ++ toString index)
      | Item.proxyItem _ b =>
          Except.ok (Option.some proxy_instance,
            if b then handle_selection s proxy_instance false else s)
    else
      Except.ok (Option.some proxy_instance, s)

/-- The spec's three probing strategies for a usable selection state
(`SelectableDataItem` capability, dict key `'is_selected'`, object
attribute/method `is_selected`): true when at least one is present. -/
def has_selection_capability : Item → Bool
  | Item.selectable _ => true
  | Item.dictWith _ => true
  | Item.dictWithout => false
  | Item.objAttr _ => true
  | Item.objFun _ => true
  | Item.bare _ => false
  | Item.proxyItem _ _ => true

/-- The operations a history may perform, i.e. the operation surface of the
class: toggling via `handle_selection`, the list helpers, data replacement,
property assignments, and the trimming helpers. -/
inductive Op where
  | toggle (p : Proxy)
  | selectList (ps : List Proxy) (extend : Bool)
  | deselectList (ps : List Proxy)
  | setData (items : List Item)
  | setMode (m : SelMode)
  | setAllowEmpty (b : Bool)
  | setLimit (n : Int)
  | trimLeft
  | trimRight
  | trimTo
  | cutTo
deriving DecidableEq, Repr

def apply_op (s : SelState) : Op → SelState
  | Op.toggle p => handle_selection s p false
  | Op.selectList ps e => select_list s ps e
  | Op.deselectList ps => deselect_list s ps
  | Op.setData items => set_data s items
  | Op.setMode m => set_selection_mode s m
  | Op.setAllowEmpty b => set_allow_empty_selection s b
  | Op.setLimit n => set_selection_limit s n
  | Op.trimLeft => trim_left_of_sel s
  | Op.trimRight => trim_right_of_sel s
  | Op.trimTo => trim_to_sel s
  | Op.cutTo => cut_to_sel s

def run_ops (s : SelState) (ops : List Op) : SelState :=
  ops.foldl apply_op s

/-- `__init__(**kwargs)`: the property values are applied before the bindings
are installed (so without firing handlers), then `update_for_new_data()` is
called explicitly. -/
def initial_state (items : List Item) (mode : SelMode) (allow_empty : Bool)
    (limit : Int) (propagate : Bool) : SelState :=
  update_for_new_data
    { data := items, selection := [], flagged := [],
      selection_mode := mode, allow_empty_selection := allow_empty,
      selection_limit := limit, propagate_selection_to_data := propagate,
      gen := 0, events := 0 }

/-! ### Effect lemmas for the atomic operations -/

@[simp] lemma dispatch_selection (s : SelState) : (dispatch s).selection = s.selection := rfl

@[simp] lemma dispatch_flagged (s : SelState) : (dispatch s).flagged = s.flagged := rfl

@[simp] lemma dispatch_mode (s : SelState) : (dispatch s).selection_mode = s.selection_mode := rfl

@[simp] lemma dispatch_allow (s : SelState) :
    (dispatch s).allow_empty_selection = s.allow_empty_selection := rfl

@[simp] lemma dispatch_limit (s : SelState) : (dispatch s).selection_limit = s.selection_limit := rfl

@[simp] lemma dispatch_gen (s : SelState) : (dispatch s).gen = s.gen := rfl

@[simp] lemma dispatch_data (s : SelState) : (dispatch s).data = s.data := rfl

@[simp] lemma dispatch_events (s : SelState) : (dispatch s).events = s.events + 1 := rfl

@[simp] lemma select_item_proxy_selection (s : SelState) (p : Proxy) :
    (select_item_proxy s p).selection = s.selection ++ [p] := by
  simp only [select_item_proxy]
  split
  · split <;> rfl
  · rfl

@[simp] lemma select_item_proxy_flagged (s : SelState) (p : Proxy) :
    (select_item_proxy s p).flagged = insertFlag p s.flagged := by
  simp only [select_item_proxy]
  split
  · split <;> rfl
  · rfl

@[simp] lemma select_item_proxy_mode (s : SelState) (p : Proxy) :
    (select_item_proxy s p).selection_mode = s.selection_mode := by
  simp only [select_item_proxy]
  split
  · split <;> rfl
  · rfl

@[simp] lemma select_item_proxy_allow (s : SelState) (p : Proxy) :
    (select_item_proxy s p).allow_empty_selection = s.allow_empty_selection := by
  simp only [select_item_proxy]
  split
  · split <;> rfl
  · rfl

@[simp] lemma select_item_proxy_limit (s : SelState) (p : Proxy) :
    (select_item_proxy s p).selection_limit = s.selection_limit := by
  simp only [select_item_proxy]
  split
  · split <;> rfl
  · rfl

@[simp] lemma select_item_proxy_gen (s : SelState) (p : Proxy) :
    (select_item_proxy s p).gen = s.gen := by
  simp only [select_item_proxy]
  split
  · split <;> rfl
  · rfl

@[simp] lemma select_item_proxy_events (s : SelState) (p : Proxy) :
    (select_item_proxy s p).events = s.events := by
  simp only [select_item_proxy]
  split
  · split <;> rfl
  · rfl

@[simp] lemma select_item_proxy_dataLen (s : SelState) (p : Proxy) :
    (select_item_proxy s p).data.length = s.data.length := by
  simp only [select_item_proxy]
  split
  · split
    · simp
    · rfl
  · rfl

@[simp] lemma deselect_item_proxy_selection (s : SelState) (p : Proxy) :
    (deselect_item_proxy s p).selection = s.selection.erase p := by
  simp only [deselect_item_proxy]
  split
  · split <;> rfl
  · rfl

@[simp] lemma deselect_item_proxy_flagged (s : SelState) (p : Proxy) :
    (deselect_item_proxy s p).flagged = s.flagged.erase p := by
  simp only [deselect_item_proxy]
  split
  · split <;> rfl
  · rfl

@[simp] lemma deselect_item_proxy_mode (s : SelState) (p : Proxy) :
    (deselect_item_proxy s p).selection_mode = s.selection_mode := by
  simp only [deselect_item_proxy]
  split
  · split <;> rfl
  · rfl

@[simp] lemma deselect_item_proxy_allow (s : SelState) (p : Proxy) :
    (deselect_item_proxy s p).allow_empty_selection = s.allow_empty_selection := by
  simp only [deselect_item_proxy]
  split
  · split <;> rfl
  · rfl

@[simp] lemma deselect_item_proxy_limit (s : SelState) (p : Proxy) :
    (deselect_item_proxy s p).selection_limit = s.selection_limit := by
  simp only [deselect_item_proxy]
  split
  · split <;> rfl
  · rfl

@[simp] lemma deselect_item_proxy_gen (s : SelState) (p : Proxy) :
    (deselect_item_proxy s p).gen = s.gen := by
  simp only [deselect_item_proxy]
  split
  · split <;> rfl
  · rfl

@[simp] lemma deselect_item_proxy_events (s : SelState) (p : Proxy) :
    (deselect_item_proxy s p).events = s.events := by
  simp only [deselect_item_proxy]
  split
  · split <;> rfl
  · rfl

@[simp] lemma deselect_item_proxy_dataLen (s : SelState) (p : Proxy) :
    (deselect_item_proxy s p).data.length = s.data.length := by
  simp only [deselect_item_proxy]
  split
  · split
    · simp
    · rfl
  · rfl

lemma mem_insertFlag {q p : Proxy} {l : List Proxy} :
    q ∈ insertFlag p l ↔ q = p ∨ q ∈ l := by
  unfold insertFlag
  split
  · rename_i hp
    constructor
    · exact Or.inr
    · rintro (rfl | hq)
      · exact hp
      · exact hq
  · simp [List.mem_cons]

lemma nodup_insertFlag {p : Proxy} {l : List Proxy} (h : l.Nodup) :
    (insertFlag p l).Nodup := by
  unfold insertFlag
  split
  · exact h
  · exact List.nodup_cons.mpr ⟨by assumption, h⟩

/-! ### Generic field-preservation machinery -/

lemma deselect_loop_pres {A : Type} (g : SelState → A)
    (hdes : ∀ t q, g (deselect_item_proxy t q) = g t) :
    ∀ (fuel : Nat) (s : SelState) (i : Nat), g (deselect_loop s i fuel) = g s := by
  intro fuel
  induction fuel with
  | zero => intro s i; rfl
  | succ n ih =>
    intro s i
    rw [deselect_loop]
    cases hq : s.selection.get? i with
    | none => rfl
    | some p => rw [ih, hdes]

lemma clear_selection_pres {A : Type} (g : SelState → A)
    (hdes : ∀ t q, g (deselect_item_proxy t q) = g t) (s : SelState) :
    g (clear_selection_for_mode s) = g s := by
  unfold clear_selection_for_mode
  split
  · exact deselect_loop_pres g hdes _ _ _
  · rfl

lemma handle_select_branch_pres {A : Type} (g : SelState → A)
    (hdes : ∀ t q, g (deselect_item_proxy t q) = g t)
    (hsel : ∀ t q, g (select_item_proxy t q) = g t)
    (s : SelState) (p : Proxy) : g (handle_select_branch s p) = g s := by
  have h2 := clear_selection_pres g hdes s
  simp only [handle_select_branch]
  split
  · split
    · split
      · split
        · rw [hsel]; exact h2
        · split
          · rw [hsel]; exact h2
          · exact h2
      · rw [hsel]; exact h2
    · rw [hsel]; exact h2
  · exact h2

lemma check_pres {A : Type} (g : SelState → A)
    (hdes : ∀ t q, g (deselect_item_proxy t q) = g t)
    (hsel : ∀ t q, g (select_item_proxy t q) = g t)
    (hdisp : ∀ t, g (dispatch t) = g t)
    (s : SelState) : g (check_for_empty_selection s) = g s := by
  unfold check_for_empty_selection
  split
  · split
    · rw [hdisp, handle_select_branch_pres g hdes hsel]
    · rfl
  · rfl

lemma handle_deselect_branch_pres {A : Type} (g : SelState → A)
    (hdes : ∀ t q, g (deselect_item_proxy t q) = g t)
    (hsel : ∀ t q, g (select_item_proxy t q) = g t)
    (hdisp : ∀ t, g (dispatch t) = g t)
    (s : SelState) (p : Proxy) : g (handle_deselect_branch s p) = g s := by
  simp only [handle_deselect_branch]
  split
  · rw [check_pres g hdes hsel hdisp, hdes]
  · exact hdes s p

lemma handle_selection_pres {A : Type} (g : SelState → A)
    (hdes : ∀ t q, g (deselect_item_proxy t q) = g t)
    (hsel : ∀ t q, g (select_item_proxy t q) = g t)
    (hdisp : ∀ t, g (dispatch t) = g t)
    (s : SelState) (p : Proxy) (hold : Bool) : g (handle_selection s p hold) = g s := by
  simp only [handle_selection]
  split
  · split
    · exact handle_select_branch_pres g hdes hsel s p
    · exact handle_deselect_branch_pres g hdes hsel hdisp s p
  · rw [hdisp]
    split
    · exact handle_select_branch_pres g hdes hsel s p
    · exact handle_deselect_branch_pres g hdes hsel hdisp s p

@[simp] lemma handle_selection_mode (s : SelState) (p : Proxy) (hold : Bool) :
    (handle_selection s p hold).selection_mode = s.selection_mode :=
  handle_selection_pres (fun t => t.selection_mode)
    (fun t q => deselect_item_proxy_mode t q)
    (fun t q => select_item_proxy_mode t q) (fun _ => rfl) s p hold

@[simp] lemma handle_selection_allow (s : SelState) (p : Proxy) (hold : Bool) :
    (handle_selection s p hold).allow_empty_selection = s.allow_empty_selection :=
  handle_selection_pres (fun t => t.allow_empty_selection)
    (fun t q => deselect_item_proxy_allow t q)
    (fun t q => select_item_proxy_allow t q) (fun _ => rfl) s p hold

@[simp] lemma handle_selection_limit (s : SelState) (p : Proxy) (hold : Bool) :
    (handle_selection s p hold).selection_limit = s.selection_limit :=
  handle_selection_pres (fun t => t.selection_limit)
    (fun t q => deselect_item_proxy_limit t q)
    (fun t q => select_item_proxy_limit t q) (fun _ => rfl) s p hold

@[simp] lemma handle_selection_gen (s : SelState) (p : Proxy) (hold : Bool) :
    (handle_selection s p hold).gen = s.gen :=
  handle_selection_pres (fun t => t.gen)
    (fun t q => deselect_item_proxy_gen t q)
    (fun t q => select_item_proxy_gen t q) (fun _ => rfl) s p hold

@[simp] lemma handle_selection_dataLen (s : SelState) (p : Proxy) (hold : Bool) :
    (handle_selection s p hold).data.length = s.data.length :=
  handle_selection_pres (fun t => t.data.length)
    (fun t q => deselect_item_proxy_dataLen t q)
    (fun t q => select_item_proxy_dataLen t q) (fun _ => rfl) s p hold

lemma foldl_handle_pres {A : Type} (g : SelState → A)
    (hg : ∀ t q, g (handle_selection t q true) = g t) :
    ∀ (ps : List Proxy) (s : SelState),
      g (ps.foldl (fun t p => handle_selection t p true) s) = g s := by
  intro ps
  induction ps with
  | nil => intro s; rfl
  | cons p rest ih => intro s; rw [List.foldl_cons, ih, hg]

/-! ### Characterization lemmas -/

lemma check_of_allow_true {s : SelState} (h : s.allow_empty_selection = true) :
    check_for_empty_selection s = s := by
  unfold check_for_empty_selection
  rw [if_neg]
  simp [h]

lemma check_of_nonempty {s : SelState} (h : s.selection.length ≠ 0) :
    check_for_empty_selection s = s := by
  unfold check_for_empty_selection
  rw [if_neg]
  simp [h]

lemma check_refill {s : SelState} (h1 : s.allow_empty_selection = false)
    (h2 : s.selection.length = 0) (h3 : 0 < s.data.length) :
    check_for_empty_selection s = dispatch (handle_select_branch s ⟨s.gen, 0⟩) := by
  unfold check_for_empty_selection
  rw [if_pos ⟨h1, h2⟩]
  have hq : get_proxy s 0 = Option.some ⟨s.gen, 0⟩ := by unfold get_proxy; rw [if_pos h3]
  rw [hq]

lemma check_of_no_data {s : SelState} (h3 : s.data.length = 0) :
    check_for_empty_selection s = s := by
  unfold check_for_empty_selection
  have hq : get_proxy s 0 = Option.none := by unfold get_proxy; rw [if_neg]; omega
  split
  · rw [hq]
  · rfl

lemma clear_of_multiple {s : SelState} (hm : s.selection_mode = SelMode.multiple) :
    clear_selection_for_mode s = s := by
  unfold clear_selection_for_mode
  rw [if_neg]
  simp [hm]

lemma clear_of_empty {s : SelState} (h : s.selection = []) :
    clear_selection_for_mode s = s := by
  unfold clear_selection_for_mode
  rw [if_neg]
  simp [h]

lemma handle_select_branch_of_multiple {s : SelState} (p : Proxy)
    (hm : s.selection_mode = SelMode.multiple) :
    handle_select_branch s p =
      (if s.allow_empty_selection then
        if s.selection_limit < 0 then select_item_proxy s p
        else
          if (s.selection.length : Int) < s.selection_limit then select_item_proxy s p
          else s
      else select_item_proxy s p) := by
  simp only [handle_select_branch, clear_of_multiple hm, hm]
  simp

lemma handle_select_branch_of_single {s : SelState} (p : Proxy)
    (hm : s.selection_mode = SelMode.single) :
    handle_select_branch s p = select_item_proxy (clear_selection_for_mode s) p := by
  have h2m : (clear_selection_for_mode s).selection_mode = SelMode.single := by
    rw [clear_selection_pres (fun t => t.selection_mode)
      (fun t q => deselect_item_proxy_mode t q) s, hm]
  simp only [handle_select_branch, h2m]
  simp

lemma deselect_loop_of_singleton {s : SelState} {x : Proxy} (h : s.selection = [x]) :
    deselect_loop s 0 s.selection.length = deselect_item_proxy s x := by
  have h1 : s.selection.length = 1 := by rw [h]; rfl
  rw [h1]
  show deselect_loop s 0 (Nat.succ 0) = deselect_item_proxy s x
  rw [deselect_loop, h]
  rfl

lemma clear_selection_of_len_le_one {s : SelState}
    (hm : s.selection_mode = SelMode.single) (h : s.selection.length ≤ 1) :
    (clear_selection_for_mode s).selection = [] := by
  rcases Nat.le_one_iff_eq_zero_or_eq_one.mp h with h0 | h1
  · rw [clear_of_empty (List.length_eq_zero.mp h0), List.length_eq_zero.mp h0]
  · obtain ⟨x, hx⟩ := List.length_eq_one.mp h1
    unfold clear_selection_for_mode
    rw [if_pos ⟨Or.inr hm, by omega⟩, deselect_loop_of_singleton hx]
    simp [hx]

lemma toggle_not_mem_single {t : SelState} {c : Proxy}
    (hm : t.selection_mode = SelMode.single) (hlen : t.selection.length ≤ 1)
    (hc : c ∉ t.selection) :
    (handle_selection t c true).selection = [c] := by
  have hbranch : handle_selection t c true = handle_select_branch t c := by
    simp [handle_selection, hc]
  rw [hbranch, handle_select_branch_of_single c hm, select_item_proxy_selection,
    clear_selection_of_len_le_one hm hlen]
  rfl

lemma toggle_mem_single {t : SelState} {c : Proxy}
    (hm : t.selection_mode = SelMode.single) (hsel : t.selection = [c]) :
    (handle_selection t c true).selection =
      (if t.allow_empty_selection = false ∧ 0 < t.data.length
       then [⟨t.gen, 0⟩] else []) := by
  have hc : c ∈ t.selection := by rw [hsel]; exact List.mem_singleton_self c
  have hbranch : handle_selection t c true = handle_deselect_branch t c := by
    simp [handle_selection, hc]
  have hs2sel : (deselect_item_proxy t c).selection = [] := by
    rw [deselect_item_proxy_selection, hsel, List.erase_cons_head]
  have hs2mode : (deselect_item_proxy t c).selection_mode = SelMode.single := by
    rw [deselect_item_proxy_mode, hm]
  rw [hbranch]
  simp only [handle_deselect_branch]
  rw [if_pos (by rw [hs2mode]; simp)]
  by_cases hae : t.allow_empty_selection = true
  · rw [check_of_allow_true (by rw [deselect_item_proxy_allow]; exact hae)]
    rw [hs2sel, if_neg]
    simp [hae]
  · have hae' : t.allow_empty_selection = false := by
      revert hae; cases t.allow_empty_selection <;> simp
    by_cases hd : 0 < t.data.length
    · rw [check_refill (by rw [deselect_item_proxy_allow]; exact hae')
        (by rw [hs2sel]; rfl) (by rw [deselect_item_proxy_dataLen]; exact hd)]
      rw [dispatch_selection, handle_select_branch_of_single _ hs2mode,
        select_item_proxy_selection, clear_of_empty hs2sel, hs2sel,
        deselect_item_proxy_gen, if_pos ⟨hae', hd⟩]
      rfl
    · have hd0 : (deselect_item_proxy t c).data.length = 0 := by
        rw [deselect_item_proxy_dataLen]; omega
      rw [check_of_no_data hd0, hs2sel, if_neg]
      simp [hd]

@[simp] lemma select_list_mode (s : SelState) (ps : List Proxy) (e : Bool) :
    (select_list s ps e).selection_mode = s.selection_mode := by
  simp only [select_list]
  rw [dispatch_mode,
    foldl_handle_pres (fun t => t.selection_mode) (fun t q => handle_selection_mode t q true)]
  split <;> rfl

@[simp] lemma select_list_allow (s : SelState) (ps : List Proxy) (e : Bool) :
    (select_list s ps e).allow_empty_selection = s.allow_empty_selection := by
  simp only [select_list]
  rw [dispatch_allow,
    foldl_handle_pres (fun t => t.allow_empty_selection)
      (fun t q => handle_selection_allow t q true)]
  split <;> rfl

@[simp] lemma select_list_limit (s : SelState) (ps : List Proxy) (e : Bool) :
    (select_list s ps e).selection_limit = s.selection_limit := by
  simp only [select_list]
  rw [dispatch_limit,
    foldl_handle_pres (fun t => t.selection_limit)
      (fun t q => handle_selection_limit t q true)]
  split <;> rfl

lemma select_list_pair_single {s : SelState} {a b : Proxy}
    (hm : s.selection_mode = SelMode.single) (hlen : s.selection.length ≤ 1)
    (hab : a ≠ b) :
    (select_list s [a, b] true).selection = [b] := by
  have hfold : select_list s [a, b] true =
      dispatch (handle_selection (handle_selection s a true) b true) := rfl
  have htm : (handle_selection s a true).selection_mode = SelMode.single := by
    rw [handle_selection_mode, hm]
  rw [hfold, dispatch_selection]
  by_cases ha : a ∈ s.selection
  · have hsel : s.selection = [a] := by
      have h1 : s.selection.length = 1 := by
        rcases Nat.le_one_iff_eq_zero_or_eq_one.mp hlen with h0 | h1
        · rw [List.length_eq_zero.mp h0] at ha; cases ha
        · exact h1
      obtain ⟨x, hx⟩ := List.length_eq_one.mp h1
      rw [hx] at ha ⊢
      rw [List.mem_singleton.mp ha]
    have htsel := toggle_mem_single hm hsel
    by_cases hcond : s.allow_empty_selection = false ∧ 0 < s.data.length
    · have htsel' : (handle_selection s a true).selection = [(⟨s.gen, 0⟩ : Proxy)] := by
        rw [htsel, if_pos hcond]
      by_cases hbq : b = (⟨s.gen, 0⟩ : Proxy)
      · have htb : (handle_selection s a true).selection = [b] := by rw [htsel', hbq]
        rw [toggle_mem_single htm htb]
        rw [if_pos ⟨by rw [handle_selection_allow]; exact hcond.1,
          by rw [handle_selection_dataLen]; exact hcond.2⟩]
        rw [handle_selection_gen, hbq]
      · have hb : b ∉ (handle_selection s a true).selection := by
          rw [htsel']; simp [hbq]
        exact toggle_not_mem_single htm (by rw [htsel']; simp) hb
    · have htsel' : (handle_selection s a true).selection = [] := by
        rw [htsel, if_neg hcond]
      exact toggle_not_mem_single htm (by rw [htsel']; simp)
        (by rw [htsel']; simp)
  · have htsel : (handle_selection s a true).selection = [a] :=
      toggle_not_mem_single hm hlen ha
    have hb : b ∉ (handle_selection s a true).selection := by
      rw [htsel]
      simp only [List.mem_singleton]
      exact fun h => hab h.symm
    exact toggle_not_mem_single htm (by rw [htsel]; simp) hb

/-! ### Generic invariant machinery -/

lemma deselect_loop_inv (P : SelState → Prop)
    (hstep : ∀ t q, P t → P (deselect_item_proxy t q)) :
    ∀ (fuel : Nat) (s : SelState) (i : Nat), P s → P (deselect_loop s i fuel) := by
  intro fuel
  induction fuel with
  | zero => intro s i h; exact h
  | succ n ih =>
    intro s i h
    rw [deselect_loop]
    cases hq : s.selection.get? i with
    | none => exact h
    | some p => exact ih _ _ (hstep s p h)

lemma foldl_handle_inv (P : SelState → Prop)
    (hstep : ∀ t q, P t → P (handle_selection t q true)) :
    ∀ (ps : List Proxy) (s : SelState), P s →
      P (ps.foldl (fun t p => handle_selection t p true) s) := by
  intro ps
  induction ps with
  | nil => intro s h; exact h
  | cons p rest ih => intro s h; rw [List.foldl_cons]; exact ih _ (hstep s p h)

lemma run_ops_inv (P : SelState → Prop) (ok : Op → Bool)
    (hstep : ∀ s op, ok op = true → P s → P (apply_op s op)) :
    ∀ (ops : List Op) (s : SelState), (∀ op ∈ ops, ok op = true) → P s →
      P (run_ops s ops) := by
  intro ops
  induction ops with
  | nil => intro s _ h; exact h
  | cons o rest ih =>
    intro s hok h
    exact ih _ (fun op hm => hok op (List.mem_cons_of_mem _ hm))
      (hstep s o (hok o (List.mem_cons_self _ _)) h)

/-- `handle_selection` with `hold_dispatch=False` is the held variant plus
one dispatch. -/
lemma handle_selection_hold_eq (s : SelState) (p : Proxy) :
    handle_selection s p false = dispatch (handle_selection s p true) := rfl

lemma handle_selection_true_eq (s : SelState) (p : Proxy) :
    handle_selection s p true =
      (if p ∉ s.selection then handle_select_branch s p
       else handle_deselect_branch s p) := rfl

/-! ### Event counting (claim C4) -/

lemma handle_select_branch_events (s : SelState) (p : Proxy) :
    (handle_select_branch s p).events = s.events :=
  handle_select_branch_pres (fun t => t.events)
    (fun t q => deselect_item_proxy_events t q)
    (fun t q => select_item_proxy_events t q) s p

lemma handle_selection_true_events {s : SelState} (p : Proxy)
    (h : s.allow_empty_selection = true) :
    (handle_selection s p true).events = s.events := by
  rw [handle_selection_true_eq]
  split
  · exact handle_select_branch_events s p
  · simp only [handle_deselect_branch]
    split
    · rw [check_of_allow_true (by rw [deselect_item_proxy_allow]; exact h),
        deselect_item_proxy_events]
    · rw [deselect_item_proxy_events]

/-! ### Claim C4 -/

/-- C4 (counterexample): with `allow_empty_selection=false` and `data=[a]`,
a single `handle_selection` toggle that deselects the only selected proxy
emits TWO `on_selection_change` notifications, not one: the empty-selection
policy re-selects through a nested `handle_selection` call whose dispatch is
not held back, and the outer call then dispatches again. -/
theorem claim_C4_counterexample :
    (run_ops (initial_state [Item.bare 0] SelMode.single false (-1) false)
        [Op.toggle ⟨1, 0⟩]).events
      = (run_ops (initial_state [Item.bare 0] SelMode.single false (-1) false)
          []).events + 2 := by
  decide

/-- C4 (amended): when `allow_empty_selection` is true (so the
empty-selection re-select never runs), every `handle_selection` call with
`hold_dispatch=false` emits exactly one `on_selection_change` notification,
and every `select_list` call emits exactly one notification regardless of the
proxies passed; when the empty-selection policy does re-select during the
call, the nested toggle emits one extra notification. -/
theorem claim_C4_amended :
    (∀ (s : SelState) (p : Proxy), s.allow_empty_selection = true →
      (handle_selection s p false).events = s.events + 1) ∧
    (∀ (s : SelState) (ps : List Proxy) (extend : Bool),
      s.allow_empty_selection = true →
      (select_list s ps extend).events = s.events + 1) := by
  constructor
  · intro s p h
    rw [handle_selection_hold_eq, dispatch_events, handle_selection_true_events p h]
  · intro s ps e h
    simp only [select_list]
    rw [dispatch_events]
    have base : (if e then s else { s with selection := [] }).events = s.events ∧
        (if e then s else { s with selection := [] }).allow_empty_selection = true := by
      split <;> exact ⟨rfl, h⟩
    have hres := foldl_handle_inv
      (fun t => t.events = s.events ∧ t.allow_empty_selection = true)
      (fun t q ht => ⟨by rw [handle_selection_true_events q ht.2]; exact ht.1,
        by rw [handle_selection_allow]; exact ht.2⟩) ps _ base
    rw [hres.1]

/-- Witness for C4 (amended) at a concrete state. -/
theorem claim_C4_witness :
    (handle_selection (initial_state [Item.bare 0] SelMode.single true (-1) false)
        ⟨1, 0⟩ false).events
      = (initial_state [Item.bare 0] SelMode.single true (-1) false).events + 1 ∧
    (select_list (initial_state [Item.bare 0] SelMode.single true (-1) false)
        [⟨1, 0⟩] true).events
      = (initial_state [Item.bare 0] SelMode.single true (-1) false).events + 1 :=
  ⟨claim_C4_amended.1 _ _ (by decide), claim_C4_amended.2 _ _ _ (by decide)⟩

/-! ### Claim C5 -/

/-- C5: single mode with `allow_empty_selection=true` over data `[a, b, c]`,
starting from empty selection: toggling proxy(a) selects it; toggling
proxy(b) first deselects proxy(a) (its `is_selected` flag is cleared) and
selects proxy(b); toggling proxy(b) again leaves the selection empty. -/
theorem claim_C5_single_scenario :
    (run_ops (initial_state [Item.bare 0, Item.bare 1, Item.bare 2]
        SelMode.single true (-1) false) [Op.toggle ⟨1, 0⟩]).selection = [⟨1, 0⟩] ∧
    (run_ops (initial_state [Item.bare 0, Item.bare 1, Item.bare 2]
        SelMode.single true (-1) false)
        [Op.toggle ⟨1, 0⟩, Op.toggle ⟨1, 1⟩]).selection = [⟨1, 1⟩] ∧
    (run_ops (initial_state [Item.bare 0, Item.bare 1, Item.bare 2]
        SelMode.single true (-1) false)
        [Op.toggle ⟨1, 0⟩, Op.toggle ⟨1, 1⟩]).flagged = [⟨1, 1⟩] ∧
    (run_ops (initial_state [Item.bare 0, Item.bare 1, Item.bare 2]
        SelMode.single true (-1) false)
        [Op.toggle ⟨1, 0⟩, Op.toggle ⟨1, 1⟩, Op.toggle ⟨1, 1⟩]).selection = [] := by
  decide

/-! ### Claim C2 -/

/-- C2 (failing-input evaluation): in multiple mode select two proxies, then
set `selection_mode='none'`.  `selection_mode_changed` iterates over
`self.selection` while `deselect_item_proxy` removes from the same list, so
the second proxy is skipped: the final state has mode `none` but a non-empty
selection, and the skipped proxy is still flagged selected. -/
theorem claim_C2_failing_eval :
    (run_ops (initial_state [Item.bare 0, Item.bare 1] SelMode.multiple true (-1) false)
        [Op.toggle ⟨1, 0⟩, Op.toggle ⟨1, 1⟩, Op.setMode SelMode.none]).selection_mode
      = SelMode.none ∧
    (run_ops (initial_state [Item.bare 0, Item.bare 1] SelMode.multiple true (-1) false)
        [Op.toggle ⟨1, 0⟩, Op.toggle ⟨1, 1⟩, Op.setMode SelMode.none]).selection
      = [⟨1, 1⟩] ∧
    (⟨1, 1⟩ : Proxy) ∈ (run_ops (initial_state [Item.bare 0, Item.bare 1]
        SelMode.multiple true (-1) false)
        [Op.toggle ⟨1, 0⟩, Op.toggle ⟨1, 1⟩, Op.setMode SelMode.none]).flagged := by
  decide

/-! ### Claim C8 -/

/-- C8 (failing-input evaluation): with data `[a, b, c]` and selection
`[proxy(b)]`, `cut_to_sel` executes `self.data = self.selection`, so `data`
becomes the list containing the Proxy object itself — not the selected data
item `[b]` — and the data-replacement lifecycle then clears the selection.
With an empty selection `cut_to_sel` leaves `data` unchanged. -/
theorem claim_C8_failing_eval :
    (run_ops (initial_state [Item.bare 0, Item.bare 1, Item.bare 2]
        SelMode.single true (-1) false)
        [Op.toggle ⟨1, 1⟩, Op.cutTo]).data = [Item.proxyItem ⟨1, 1⟩ true] ∧
    (run_ops (initial_state [Item.bare 0, Item.bare 1, Item.bare 2]
        SelMode.single true (-1) false)
        [Op.toggle ⟨1, 1⟩, Op.cutTo]).data ≠ [Item.bare 1] ∧
    (run_ops (initial_state [Item.bare 0, Item.bare 1, Item.bare 2]
        SelMode.single true (-1) false)
        [Op.cutTo]).data = [Item.bare 0, Item.bare 1, Item.bare 2] := by
  decide

/-! ### Claim C9 -/

/-- C9 (counterexample): in multiple mode (no limit, `allow_empty=true`,
mode and limit fixed throughout), `select_list([a, b], extend=true)` once
selects both proxies, but calling it a second time toggles both off again —
`select_list` routes every proxy through `handle_selection`, which deselects
already-selected proxies — so twice is not the same as once. -/
theorem claim_C9_counterexample :
    (run_ops (initial_state [Item.bare 0, Item.bare 1] SelMode.multiple true (-1) false)
        [Op.selectList [⟨1, 0⟩, ⟨1, 1⟩] true]).selection = [⟨1, 0⟩, ⟨1, 1⟩] ∧
    (run_ops (initial_state [Item.bare 0, Item.bare 1] SelMode.multiple true (-1) false)
        [Op.selectList [⟨1, 0⟩, ⟨1, 1⟩] true,
          Op.selectList [⟨1, 0⟩, ⟨1, 1⟩] true]).selection = [] := by
  decide

/-- C9 (amended): in `single` mode, from any state with at most one selected
proxy and distinct proxies `a ≠ b`, `select_list([a, b], extend=true)` twice
in a row leaves the same final selection as calling it once (both end with
selection `[b]`); in `multiple` mode the second call toggles the
already-selected proxies off, so idempotence fails. -/
theorem claim_C9_amended :
    ∀ (s : SelState) (a b : Proxy), s.selection_mode = SelMode.single →
      s.selection.length ≤ 1 → a ≠ b →
      (select_list (select_list s [a, b] true) [a, b] true).selection
        = (select_list s [a, b] true).selection := by
  intro s a b hm hlen hab
  have h1 := select_list_pair_single hm hlen hab
  have hm1 : (select_list s [a, b] true).selection_mode = SelMode.single := by
    rw [select_list_mode, hm]
  have hlen1 : (select_list s [a, b] true).selection.length ≤ 1 := by
    rw [h1]; simp
  rw [select_list_pair_single hm1 hlen1 hab, h1]

/-- Witness for C9 (amended) at a concrete state. -/
theorem claim_C9_witness :
    (select_list (select_list (initial_state [Item.bare 0, Item.bare 1]
          SelMode.single true (-1) false) [⟨1, 0⟩, ⟨1, 1⟩] true)
        [⟨1, 0⟩, ⟨1, 1⟩] true).selection
      = (select_list (initial_state [Item.bare 0, Item.bare 1]
          SelMode.single true (-1) false) [⟨1, 0⟩, ⟨1, 1⟩] true).selection :=
  claim_C9_amended _ _ _ (by decide) (by decide) (by decide)

/-! ### Claim C10 -/

lemma get?_set_of_get? {l : List Item} {i : Nat} {a b : Item}
    (h : l.get? i = Option.some a) :
    (l.set i b).get? i = Option.some b := by
  induction l generalizing i with
  | nil => cases h
  | cons x xs ih =>
    cases i with
    | zero => rfl
    | succ n => exact ih h

/-- C10: when a data item exposes `is_selected` as a callable,
`set_data_item_selection` invokes it and discards the result without writing,
so selecting or deselecting a proxy of that item (even with
`propagate_selection_to_data` enabled) leaves the data item unchanged. -/
theorem claim_C10_callable_unchanged :
    (∀ (r v : Bool), set_data_item_selection (Item.objFun r) v = Item.objFun r) ∧
    (∀ (s : SelState) (p : Proxy) (r : Bool),
      s.data.get? p.index = Option.some (Item.objFun r) →
      (select_item_proxy s p).data.get? p.index = Option.some (Item.objFun r) ∧
      (deselect_item_proxy s p).data.get? p.index = Option.some (Item.objFun r)) := by
  constructor
  · intro r v; rfl
  · intro s p r h
    constructor
    · simp only [select_item_proxy]
      split
      · split
        · rename_i it heq
          have hit : Option.some it = Option.some (Item.objFun r) := heq.symm.trans h
          cases hit
          exact get?_set_of_get? h
        · exact h
      · exact h
    · simp only [deselect_item_proxy]
      split
      · split
        · rename_i it heq
          have hit : Option.some it = Option.some (Item.objFun r) := heq.symm.trans h
          cases hit
          exact get?_set_of_get? h
        · exact h
      · exact h

/-- Witness for C10 at a concrete state. -/
theorem claim_C10_witness :
    set_data_item_selection (Item.objFun true) false = Item.objFun true ∧
    (select_item_proxy
        { data := [Item.objFun true], selection := [], flagged := [],
          selection_mode := SelMode.single, allow_empty_selection := true,
          selection_limit := -1, propagate_selection_to_data := true,
          gen := 0, events := 0 } ⟨0, 0⟩).data.get? 0
      = Option.some (Item.objFun true) :=
  ⟨claim_C10_callable_unchanged.1 true false,
   (claim_C10_callable_unchanged.2 _ ⟨0, 0⟩ true (by decide)).1⟩

/-! ### Claim C7 -/

/-- C7: `create_proxy` raises the unselectable-item error exactly when
`propagate_selection_to_data` is enabled and the data item at the index has
none of the three probed selection-state capabilities (`SelectableDataItem`
subclass, dict entry keyed `'is_selected'`, object attribute or method named
`is_selected`); in particular with propagation disabled it never raises. -/
theorem claim_C7_create_proxy_error :
    ∀ (s : SelState) (i : Nat),
      (∃ e, create_proxy s i = Except.error e) ↔
        (s.propagate_selection_to_data = true ∧
          ∃ item, get_data_item s i = Option.some item ∧
            has_selection_capability item = false) := by
  intro s i
  unfold create_proxy
  cases hit : get_data_item s i with
  | none => simp [hit]
  | some item =>
    by_cases hp : s.propagate_selection_to_data = true
    · cases item <;> simp [hit, hp, has_selection_capability]
    · have hp' : s.propagate_selection_to_data = false := by
        revert hp; cases s.propagate_selection_to_data <;> simp
      simp [hit, hp']

/-! ### Claim C1 -/

/-- Operations that leave `selection_mode`, `allow_empty_selection` and
`selection_limit` unchanged (the claim holds the configuration fixed). -/
def config_stable : Op → Bool
  | Op.setMode _ => false
  | Op.setAllowEmpty _ => false
  | Op.setLimit _ => false
  | _ => true

/-- The inductive invariant for C1: multiple mode, `allow_empty_selection`
true, fixed limit `L`, and the selection within the limit. -/
def P1 (L : Int) (s : SelState) : Prop :=
  s.selection_mode = SelMode.multiple ∧ s.allow_empty_selection = true ∧
  s.selection_limit = L ∧ (s.selection.length : Int) ≤ L

lemma P1_toggle {L : Int} {s : SelState} (hP : P1 L s) (p : Proxy) (hold : Bool) :
    P1 L (handle_selection s p hold) := by
  obtain ⟨hm, ha, hl, hlen⟩ := hP
  refine ⟨by rw [handle_selection_mode]; exact hm,
    by rw [handle_selection_allow]; exact ha,
    by rw [handle_selection_limit]; exact hl, ?_⟩
  have hsel : (handle_selection s p hold).selection
      = (handle_selection s p true).selection := by
    cases hold
    · rw [handle_selection_hold_eq, dispatch_selection]
    · rfl
  rw [hsel, handle_selection_true_eq]
  split
  · rw [handle_select_branch_of_multiple p hm]
    split
    · split
      · rename_i hneg
        rw [hl] at hneg
        omega
      · split
        · rename_i hlt
          rw [hl] at hlt
          rw [select_item_proxy_selection]
          simp only [List.length_append, List.length_singleton]
          push_cast
          omega
        · exact hlen
    · rename_i hfalse
      exact absurd ha hfalse
  · simp only [handle_deselect_branch]
    have herase : ((s.selection.erase p).length : Int) ≤ L := by
      have := (List.erase_sublist p s.selection).length_le
      omega
    split
    · rw [check_of_allow_true (by rw [deselect_item_proxy_allow]; exact ha),
        deselect_item_proxy_selection]
      exact herase
    · rw [deselect_item_proxy_selection]
      exact herase

lemma P1_check {L : Int} {s : SelState} (hP : P1 L s) :
    P1 L (check_for_empty_selection s) := by
  rw [check_of_allow_true hP.2.1]
  exact hP

lemma P1_initialize {L : Int} {s : SelState} (hP : P1 L s) :
    P1 L (initialize_selection s) := by
  obtain ⟨hm, ha, hl, hlen⟩ := hP
  have h0 : (0 : Int) ≤ L := by omega
  unfold initialize_selection
  apply P1_check
  split
  · exact ⟨hm, ha, hl, by simpa using h0⟩
  · exact ⟨hm, ha, hl, hlen⟩

lemma P1_set_data {L : Int} {s : SelState} (hP : P1 L s) (items : List Item) :
    P1 L (set_data s items) := by
  obtain ⟨hm, ha, hl, hlen⟩ := hP
  unfold set_data update_for_new_data
  exact P1_initialize ⟨hm, ha, hl, hlen⟩

lemma P1_step {L : Int} {s : SelState} (op : Op) (hok : config_stable op = true)
    (hP : P1 L s) : P1 L (apply_op s op) := by
  cases op with
  | toggle p => exact P1_toggle hP p false
  | selectList ps e =>
    have base : P1 L (if e then s else { s with selection := [] }) := by
      obtain ⟨hm, ha, hl, hlen⟩ := hP
      split
      · exact ⟨hm, ha, hl, hlen⟩
      · exact ⟨hm, ha, hl, by simp; omega⟩
    have hfold := foldl_handle_inv (P1 L) (fun t q ht => P1_toggle ht q true) ps _ base
    simp only [apply_op, select_list]
    exact ⟨hfold.1, hfold.2.1, hfold.2.2.1, by rw [dispatch_selection]; exact hfold.2.2.2⟩
  | deselectList ps =>
    have hfold := foldl_handle_inv (P1 L) (fun t q ht => P1_toggle ht q true) ps _ hP
    simp only [apply_op, deselect_list]
    exact ⟨hfold.1, hfold.2.1, hfold.2.2.1, by rw [dispatch_selection]; exact hfold.2.2.2⟩
  | setData items => exact P1_set_data hP items
  | setMode m => cases hok
  | setAllowEmpty b => cases hok
  | setLimit n => cases hok
  | trimLeft =>
    simp only [apply_op, trim_left_of_sel]
    split
    · exact P1_set_data hP _
    · exact hP
  | trimRight =>
    simp only [apply_op, trim_right_of_sel]
    split
    · exact P1_set_data hP _
    · exact hP
  | trimTo =>
    simp only [apply_op, trim_to_sel]
    split
    · exact P1_set_data hP _
    · exact hP
  | cutTo =>
    simp only [apply_op, cut_to_sel]
    split
    · exact P1_set_data hP _
    · exact hP

/-- C1 (counterexample): with `selection_mode='multiple'`,
`selection_limit=1` and `allow_empty_selection=false`, the auto-selected
first proxy plus one toggle gives a selection of size 2 > 1: the
`multiple`-with-`allow_empty_selection=false` branch of `handle_selection`
selects unconditionally, never consulting the limit. -/
theorem claim_C1_counterexample :
    (run_ops (initial_state [Item.bare 0, Item.bare 1, Item.bare 2]
        SelMode.multiple false 1 false) [Op.toggle ⟨1, 1⟩]).selection_mode
      = SelMode.multiple ∧
    (run_ops (initial_state [Item.bare 0, Item.bare 1, Item.bare 2]
        SelMode.multiple false 1 false) [Op.toggle ⟨1, 1⟩]).selection_limit = 1 ∧
    ((run_ops (initial_state [Item.bare 0, Item.bare 1, Item.bare 2]
        SelMode.multiple false 1 false) [Op.toggle ⟨1, 1⟩]).selection.length : Int)
      = 2 := by
  decide

/-- C1 (amended): with `selection_mode='multiple'`, `allow_empty_selection`
TRUE and `selection_limit = L ≥ 0` held fixed, the selection size never
exceeds `L` over any history, and a toggle of an unselected proxy when the
selection already holds `L` proxies leaves the selection unchanged (the
request is dropped without an error). -/
theorem claim_C1_amended :
    (∀ (items : List Item) (L : Int) (ops : List Op), 0 ≤ L →
      (∀ op ∈ ops, config_stable op = true) →
      ((run_ops (initial_state items SelMode.multiple true L false) ops).selection.length
        : Int) ≤ L) ∧
    (∀ (s : SelState) (p : Proxy), s.selection_mode = SelMode.multiple →
      s.allow_empty_selection = true → 0 ≤ s.selection_limit →
      (s.selection.length : Int) = s.selection_limit → p ∉ s.selection →
      (handle_selection s p false).selection = s.selection) := by
  constructor
  · intro items L ops hL hok
    have hbase : P1 L
        { data := items, selection := [], flagged := [],
          selection_mode := SelMode.multiple, allow_empty_selection := true,
          selection_limit := L, propagate_selection_to_data := false,
          gen := 0, events := 0 } := ⟨rfl, rfl, rfl, by simpa using hL⟩
    have hinit : P1 L (initial_state items SelMode.multiple true L false) := by
      unfold initial_state update_for_new_data
      exact P1_initialize hbase
    exact (run_ops_inv (P1 L) config_stable (fun t op h hP => P1_step op h hP)
      ops _ hok hinit).2.2.2
  · intro s p hm ha hL hlen hp
    rw [handle_selection_hold_eq, dispatch_selection, handle_selection_true_eq,
      if_pos hp, handle_select_branch_of_multiple p hm, ha]
    simp only [if_true]
    rw [if_neg (by omega), if_neg (by omega)]

/-- Witness for C1 (amended) at concrete inputs. -/
theorem claim_C1_witness :
    ((run_ops (initial_state [Item.bare 0, Item.bare 1] SelMode.multiple true 1 false)
        [Op.toggle ⟨1, 0⟩, Op.toggle ⟨1, 1⟩]).selection.length : Int) ≤ 1 ∧
    (handle_selection (run_ops (initial_state [Item.bare 0, Item.bare 1]
        SelMode.multiple true 1 false) [Op.toggle ⟨1, 0⟩]) ⟨1, 1⟩ false).selection
      = (run_ops (initial_state [Item.bare 0, Item.bare 1]
          SelMode.multiple true 1 false) [Op.toggle ⟨1, 0⟩]).selection :=
  ⟨claim_C1_amended.1 _ 1 _ (by decide) (by decide),
   claim_C1_amended.2 _ _ (by decide) (by decide) (by decide) (by decide) (by decide)⟩

/-! ### Claim C6 -/

@[simp] lemma check_mode (s : SelState) :
    (check_for_empty_selection s).selection_mode = s.selection_mode :=
  check_pres (fun t => t.selection_mode)
    (fun t q => deselect_item_proxy_mode t q)
    (fun t q => select_item_proxy_mode t q) (fun _ => rfl) s

@[simp] lemma check_allow (s : SelState) :
    (check_for_empty_selection s).allow_empty_selection = s.allow_empty_selection :=
  check_pres (fun t => t.allow_empty_selection)
    (fun t q => deselect_item_proxy_allow t q)
    (fun t q => select_item_proxy_allow t q) (fun _ => rfl) s

@[simp] lemma check_dataLen (s : SelState) :
    (check_for_empty_selection s).data.length = s.data.length :=
  check_pres (fun t => t.data.length)
    (fun t q => deselect_item_proxy_dataLen t q)
    (fun t q => select_item_proxy_dataLen t q) (fun _ => rfl) s

lemma select_branch_nonempty {s : SelState} (p : Proxy)
    (hm : s.selection_mode ≠ SelMode.none) (ha : s.allow_empty_selection = false) :
    (handle_select_branch s p).selection ≠ [] := by
  cases hmode : s.selection_mode with
  | none => exact absurd hmode hm
  | single =>
    rw [handle_select_branch_of_single p hmode, select_item_proxy_selection]
    simp
  | multiple =>
    rw [handle_select_branch_of_multiple p hmode, if_neg (by simp [ha]),
      select_item_proxy_selection]
    simp

lemma check_gives_nonempty {s : SelState} (hm : s.selection_mode ≠ SelMode.none)
    (ha : s.allow_empty_selection = false) (hd : 0 < s.data.length) :
    (check_for_empty_selection s).selection ≠ [] := by
  by_cases hlen : s.selection.length = 0
  · rw [check_refill ha hlen hd, dispatch_selection]
    exact select_branch_nonempty _ hm ha
  · rw [check_of_nonempty hlen]
    intro h
    exact hlen (by rw [h]; rfl)

/-- The inductive invariant for C6: the mode is never `none`, and with
`allow_empty_selection` false a non-empty `data` forces a non-empty
selection. -/
def P6 (s : SelState) : Prop :=
  s.selection_mode ≠ SelMode.none ∧
  (s.allow_empty_selection = false → 0 < s.data.length → s.selection ≠ [])

/-- Operations that never set the mode to `none` and never clear the
selection without re-applying the empty-selection policy. -/
def mode_safe : Op → Bool
  | Op.setMode m => decide (m ≠ SelMode.none)
  | Op.selectList _ e => e
  | _ => true

lemma P6_toggle {s : SelState} (hP : P6 s) (p : Proxy) (hold : Bool) :
    P6 (handle_selection s p hold) := by
  obtain ⟨hm, _⟩ := hP
  constructor
  · rw [handle_selection_mode]; exact hm
  · intro ha hd
    rw [handle_selection_allow] at ha
    rw [handle_selection_dataLen] at hd
    have hsel : (handle_selection s p hold).selection
        = (handle_selection s p true).selection := by
      cases hold
      · rw [handle_selection_hold_eq, dispatch_selection]
      · rfl
    rw [hsel, handle_selection_true_eq]
    split
    · exact select_branch_nonempty p hm ha
    · simp only [handle_deselect_branch]
      split
      · apply check_gives_nonempty
        · rw [deselect_item_proxy_mode]; exact hm
        · rw [deselect_item_proxy_allow]; exact ha
        · rw [deselect_item_proxy_dataLen]; exact hd
      · rename_i hcond
        exfalso
        apply hcond
        rw [deselect_item_proxy_mode]
        exact hm

lemma P6_check {s : SelState} (hm : s.selection_mode ≠ SelMode.none) :
    P6 (check_for_empty_selection s) := by
  constructor
  · rw [check_mode]; exact hm
  · intro ha hd
    rw [check_allow] at ha
    rw [check_dataLen] at hd
    exact check_gives_nonempty hm ha hd

lemma P6_initialize {s : SelState} (hm : s.selection_mode ≠ SelMode.none) :
    P6 (initialize_selection s) := by
  unfold initialize_selection
  apply P6_check
  split
  · exact hm
  · exact hm

lemma P6_set_data {s : SelState} (hm : s.selection_mode ≠ SelMode.none)
    (items : List Item) : P6 (set_data s items) := by
  unfold set_data update_for_new_data
  exact P6_initialize hm

lemma P6_step {s : SelState} (op : Op) (hok : mode_safe op = true) (hP : P6 s) :
    P6 (apply_op s op) := by
  cases op with
  | toggle p => exact P6_toggle hP p false
  | selectList ps e =>
    have he : e = true := hok
    subst he
    exact foldl_handle_inv P6 (fun t q ht => P6_toggle ht q true) ps s hP
  | deselectList ps =>
    exact foldl_handle_inv P6 (fun t q ht => P6_toggle ht q true) ps s hP
  | setData items => exact P6_set_data hP.1 items
  | setMode m =>
    have hm' : m ≠ SelMode.none := of_decide_eq_true hok
    simp only [apply_op, set_selection_mode]
    split
    · exact hP
    · unfold selection_mode_changed
      split
      · rename_i hcond
        exact absurd hcond hm'
      · exact P6_check hm'
  | setAllowEmpty b =>
    simp only [apply_op, set_allow_empty_selection]
    split
    · exact hP
    · exact P6_check hP.1
  | setLimit n => exact ⟨hP.1, fun ha hd => hP.2 ha hd⟩
  | trimLeft =>
    simp only [apply_op, trim_left_of_sel]
    split
    · exact P6_set_data hP.1 _
    · exact hP
  | trimRight =>
    simp only [apply_op, trim_right_of_sel]
    split
    · exact P6_set_data hP.1 _
    · exact hP
  | trimTo =>
    simp only [apply_op, trim_to_sel]
    split
    · exact P6_set_data hP.1 _
    · exact hP
  | cutTo =>
    simp only [apply_op, cut_to_sel]
    split
    · exact P6_set_data hP.1 _
    · exact hP

lemma select_branch_empty_refill {s : SelState} (q : Proxy) (hsel : s.selection = [])
    (hm : s.selection_mode ≠ SelMode.none) (ha : s.allow_empty_selection = false) :
    (handle_select_branch s q).selection = [q] := by
  cases hmode : s.selection_mode with
  | none => exact absurd hmode hm
  | single =>
    rw [handle_select_branch_of_single q hmode, select_item_proxy_selection,
      clear_of_empty hsel, hsel]
    rfl
  | multiple =>
    rw [handle_select_branch_of_multiple q hmode, if_neg (by simp [ha]),
      select_item_proxy_selection, hsel]
    rfl

lemma check_refill_selection {s : SelState} (hm : s.selection_mode ≠ SelMode.none)
    (ha : s.allow_empty_selection = false) (hsel : s.selection = [])
    (hd : 0 < s.data.length) :
    (check_for_empty_selection s).selection = [⟨s.gen, 0⟩] := by
  rw [check_refill ha (by rw [hsel]; rfl) hd, dispatch_selection]
  exact select_branch_empty_refill _ hsel hm ha

lemma set_data_selects_first {s : SelState} {items : List Item}
    (ha : s.allow_empty_selection = false) (hm : s.selection_mode ≠ SelMode.none)
    (hd : items ≠ []) :
    (set_data s items).selection = [⟨s.gen + 1, 0⟩] := by
  unfold set_data update_for_new_data initialize_selection
  split
  · apply check_refill_selection
    · exact hm
    · exact ha
    · rfl
    · exact List.length_pos.mpr hd
  · rename_i hlen
    apply check_refill_selection
    · exact hm
    · exact ha
    · have hlen' : ¬(0 < s.selection.length) := hlen
      have h0 : s.selection.length = 0 := by omega
      exact List.length_eq_zero.mp h0
    · exact List.length_pos.mpr hd

lemma toggle_last_refills {s : SelState} {p : Proxy} (hsel : s.selection = [p])
    (hm : s.selection_mode ≠ SelMode.none) (ha : s.allow_empty_selection = false)
    (hd : 0 < s.data.length) :
    (handle_selection s p false).selection = [⟨s.gen, 0⟩] := by
  have hp : p ∈ s.selection := by rw [hsel]; exact List.mem_singleton_self p
  rw [handle_selection_hold_eq, dispatch_selection, handle_selection_true_eq,
    if_neg (not_not_intro hp)]
  simp only [handle_deselect_branch]
  rw [if_pos (show (deselect_item_proxy s p).selection_mode ≠ SelMode.none by
    rw [deselect_item_proxy_mode]; exact hm)]
  have h2 := @check_refill_selection (deselect_item_proxy s p)
    (by rw [deselect_item_proxy_mode]; exact hm)
    (by rw [deselect_item_proxy_allow]; exact ha)
    (by rw [deselect_item_proxy_selection, hsel, List.erase_cons_head])
    (by rw [deselect_item_proxy_dataLen]; exact hd)
  rw [deselect_item_proxy_gen] at h2
  exact h2

/-- C6 (counterexample): two reachable states violate the claim as stated.
`select_list([], extend=false)` clears the selection without re-applying the
empty-selection policy, and setting `selection_mode='none'` deselects
everything; in both runs `allow_empty_selection=false` and `data` is
non-empty, yet the final selection is empty. -/
theorem claim_C6_counterexample :
    ((run_ops (initial_state [Item.bare 0] SelMode.single false (-1) false)
        [Op.selectList [] false]).allow_empty_selection = false ∧
      (run_ops (initial_state [Item.bare 0] SelMode.single false (-1) false)
        [Op.selectList [] false]).data ≠ [] ∧
      (run_ops (initial_state [Item.bare 0] SelMode.single false (-1) false)
        [Op.selectList [] false]).selection = []) ∧
    ((run_ops (initial_state [Item.bare 0] SelMode.single false (-1) false)
        [Op.setMode SelMode.none]).allow_empty_selection = false ∧
      (run_ops (initial_state [Item.bare 0] SelMode.single false (-1) false)
        [Op.setMode SelMode.none]).data ≠ [] ∧
      (run_ops (initial_state [Item.bare 0] SelMode.single false (-1) false)
        [Op.setMode SelMode.none]).selection = []) := by
  decide

/-- C6 (amended): over histories that never set the mode to `none` and never
call `select_list` with `extend=false`, if `allow_empty_selection` is false
and `data` is non-empty then the selection is non-empty; moreover data
replacement auto-selects the proxy at index 0 (of the new cache generation),
and a toggle that deselects the last selected proxy re-selects the proxy at
index 0. -/
theorem claim_C6_amended :
    (∀ (items : List Item) (m : SelMode) (ae : Bool) (L : Int) (ops : List Op),
      m ≠ SelMode.none → (∀ op ∈ ops, mode_safe op = true) →
      (run_ops (initial_state items m ae L false) ops).allow_empty_selection = false →
      (run_ops (initial_state items m ae L false) ops).data ≠ [] →
      (run_ops (initial_state items m ae L false) ops).selection ≠ []) ∧
    (∀ (s : SelState) (items : List Item), s.allow_empty_selection = false →
      s.selection_mode ≠ SelMode.none → items ≠ [] →
      (set_data s items).selection = [⟨s.gen + 1, 0⟩]) ∧
    (∀ (s : SelState) (p : Proxy), s.selection = [p] →
      s.selection_mode ≠ SelMode.none → s.allow_empty_selection = false →
      s.data ≠ [] → (handle_selection s p false).selection = [⟨s.gen, 0⟩]) := by
  refine ⟨?_, ?_, ?_⟩
  · intro items m ae L ops hm hok ha hd
    have hinit : P6 (initial_state items m ae L false) := by
      unfold initial_state update_for_new_data
      exact P6_initialize hm
    have hrun := run_ops_inv P6 mode_safe (fun t op h hP => P6_step op h hP)
      ops _ hok hinit
    exact hrun.2 ha (List.length_pos.mpr hd)
  · intro s items ha hm hd
    exact set_data_selects_first ha hm hd
  · intro s p hsel hm ha hd
    exact toggle_last_refills hsel hm ha (List.length_pos.mpr hd)

/-- Witness for C6 (amended) at concrete inputs. -/
theorem claim_C6_witness :
    (run_ops (initial_state [Item.bare 0] SelMode.single false (-1) false)
        [Op.toggle ⟨1, 0⟩]).selection ≠ [] ∧
    (set_data (initial_state [Item.bare 0] SelMode.single false (-1) false)
        [Item.bare 1]).selection
      = [⟨(initial_state [Item.bare 0] SelMode.single false (-1) false).gen + 1, 0⟩] ∧
    (handle_selection (initial_state [Item.bare 0] SelMode.single false (-1) false)
        ⟨1, 0⟩ false).selection
      = [⟨(initial_state [Item.bare 0] SelMode.single false (-1) false).gen, 0⟩] :=
  ⟨claim_C6_amended.1 _ SelMode.single _ _ _ (by decide) (by decide) (by decide)
      (by decide),
   claim_C6_amended.2.1 _ _ (by decide) (by decide) (by decide),
   claim_C6_amended.2.2 _ _ (by decide) (by decide) (by decide) (by decide)⟩

/-! ### Claim C3 -/

/-- Invariant A for C3 (holds over ALL operations): no duplicate selection
entries, and every selected proxy carries the `is_selected` flag. -/
def InvA (s : SelState) : Prop :=
  s.selection.Nodup ∧ ∀ p ∈ s.selection, p ∈ s.flagged

/-- Invariant B for C3 (holds over toggle-only operations): the selection and
the flags are in exact bidirectional correspondence. -/
def InvB (s : SelState) : Prop :=
  s.selection.Nodup ∧ s.flagged.Nodup ∧ ∀ p, p ∈ s.selection ↔ p ∈ s.flagged

/-- The operations the amended C3 quantifies over: toggles, extending
`select_list`, and `deselect_list` — data replacement and
`select_list(extend=false)` reset the selection without clearing flags. -/
def flag_safe : Op → Bool
  | Op.toggle _ => true
  | Op.selectList _ e => e
  | Op.deselectList _ => true
  | _ => false

lemma InvA_deselect {s : SelState} (h : InvA s) (p : Proxy) :
    InvA (deselect_item_proxy s p) := by
  obtain ⟨hnd, hsub⟩ := h
  constructor
  · rw [deselect_item_proxy_selection]; exact hnd.erase p
  · intro q hq
    rw [deselect_item_proxy_selection] at hq
    rw [deselect_item_proxy_flagged]
    obtain ⟨hne, hmem⟩ := hnd.mem_erase_iff.mp hq
    exact (List.mem_erase_of_ne hne).mpr (hsub q hmem)

lemma InvA_select {s : SelState} (h : InvA s) {p : Proxy} (hp : p ∉ s.selection) :
    InvA (select_item_proxy s p) := by
  obtain ⟨hnd, hsub⟩ := h
  constructor
  · rw [select_item_proxy_selection]
    simp [List.nodup_append, hnd, hp]
  · intro q hq
    rw [select_item_proxy_selection, List.mem_append] at hq
    rw [select_item_proxy_flagged]
    rcases hq with hq | hq
    · exact mem_insertFlag.mpr (Or.inr (hsub q hq))
    · exact mem_insertFlag.mpr (Or.inl (List.mem_singleton.mp hq))

lemma clear_selection_subset (s : SelState) :
    ∀ q ∈ (clear_selection_for_mode s).selection, q ∈ s.selection := by
  unfold clear_selection_for_mode
  split
  · exact deselect_loop_inv (fun t => ∀ q ∈ t.selection, q ∈ s.selection)
      (fun t x ht q hq => by
        rw [deselect_item_proxy_selection] at hq
        exact ht q (List.erase_subset _ _ hq))
      _ _ _ (fun q hq => hq)
  · exact fun q hq => hq

lemma InvA_clear {s : SelState} (h : InvA s) : InvA (clear_selection_for_mode s) := by
  unfold clear_selection_for_mode
  split
  · exact deselect_loop_inv InvA (fun t q ht => InvA_deselect ht q) _ _ _ h
  · exact h

lemma InvA_select_branch {s : SelState} (h : InvA s) {p : Proxy}
    (hp : p ∉ s.selection) : InvA (handle_select_branch s p) := by
  have hclear := InvA_clear h
  have hp2 : p ∉ (clear_selection_for_mode s).selection :=
    fun hx => hp (clear_selection_subset s p hx)
  simp only [handle_select_branch]
  split
  · split
    · split
      · split
        · exact InvA_select hclear hp2
        · split
          · exact InvA_select hclear hp2
          · exact hclear
      · exact InvA_select hclear hp2
    · exact InvA_select hclear hp2
  · exact hclear

lemma InvA_check {s : SelState} (h : InvA s) : InvA (check_for_empty_selection s) := by
  unfold check_for_empty_selection
  split
  · rename_i hcond
    split
    · exact InvA_select_branch h
        (by rw [List.length_eq_zero.mp hcond.2]; simp)
    · exact h
  · exact h

lemma InvA_toggle {s : SelState} (h : InvA s) (p : Proxy) (hold : Bool) :
    InvA (handle_selection s p hold) := by
  have hcore : InvA (handle_selection s p true) := by
    rw [handle_selection_true_eq]
    split
    · exact InvA_select_branch h (by assumption)
    · simp only [handle_deselect_branch]
      split
      · exact InvA_check (InvA_deselect h p)
      · exact InvA_deselect h p
  cases hold
  · exact hcore
  · exact hcore

lemma InvA_initialize {s : SelState} (h : InvA s) : InvA (initialize_selection s) := by
  unfold initialize_selection
  apply InvA_check
  split
  · exact ⟨List.nodup_nil, by simp⟩
  · exact h

lemma InvA_step {s : SelState} (op : Op) (h : InvA s) : InvA (apply_op s op) := by
  cases op with
  | toggle p => exact InvA_toggle h p false
  | selectList ps e =>
    have base : InvA (if e then s else { s with selection := [] }) := by
      split
      · exact h
      · exact ⟨List.nodup_nil, by simp⟩
    exact foldl_handle_inv InvA (fun t q ht => InvA_toggle ht q true) ps _ base
  | deselectList ps =>
    exact foldl_handle_inv InvA (fun t q ht => InvA_toggle ht q true) ps s h
  | setData items =>
    exact InvA_initialize h
  | setMode m =>
    simp only [apply_op, set_selection_mode]
    split
    · exact h
    · unfold selection_mode_changed
      split
      · exact deselect_loop_inv InvA (fun t q ht => InvA_deselect ht q) _ _ _ h
      · exact InvA_check h
  | setAllowEmpty b =>
    simp only [apply_op, set_allow_empty_selection]
    split
    · exact h
    · exact InvA_check h
  | setLimit n => exact h
  | trimLeft =>
    simp only [apply_op, trim_left_of_sel]
    split
    · exact InvA_initialize h
    · exact h
  | trimRight =>
    simp only [apply_op, trim_right_of_sel]
    split
    · exact InvA_initialize h
    · exact h
  | trimTo =>
    simp only [apply_op, trim_to_sel]
    split
    · exact InvA_initialize h
    · exact h
  | cutTo =>
    simp only [apply_op, cut_to_sel]
    split
    · exact InvA_initialize h
    · exact h

lemma InvB_deselect {s : SelState} (h : InvB s) (p : Proxy) :
    InvB (deselect_item_proxy s p) := by
  obtain ⟨hnds, hndf, hiff⟩ := h
  refine ⟨by rw [deselect_item_proxy_selection]; exact hnds.erase p,
    by rw [deselect_item_proxy_flagged]; exact hndf.erase p, ?_⟩
  intro q
  rw [deselect_item_proxy_selection, deselect_item_proxy_flagged,
    hnds.mem_erase_iff, hndf.mem_erase_iff]
  exact and_congr_right fun _ => hiff q

lemma InvB_select {s : SelState} (h : InvB s) {p : Proxy} (hp : p ∉ s.selection) :
    InvB (select_item_proxy s p) := by
  obtain ⟨hnds, hndf, hiff⟩ := h
  have hpf : p ∉ s.flagged := fun hx => hp ((hiff p).mpr hx)
  have hins : insertFlag p s.flagged = p :: s.flagged := by
    unfold insertFlag
    rw [if_neg hpf]
  refine ⟨by rw [select_item_proxy_selection]; simp [List.nodup_append, hnds, hp],
    by rw [select_item_proxy_flagged, hins]; exact List.nodup_cons.mpr ⟨hpf, hndf⟩, ?_⟩
  intro q
  rw [select_item_proxy_selection, select_item_proxy_flagged, hins,
    List.mem_append, List.mem_singleton, List.mem_cons]
  constructor
  · rintro (hq | rfl)
    · exact Or.inr ((hiff q).mp hq)
    · exact Or.inl rfl
  · rintro (rfl | hq)
    · exact Or.inr rfl
    · exact Or.inl ((hiff q).mpr hq)

lemma InvB_clear {s : SelState} (h : InvB s) : InvB (clear_selection_for_mode s) := by
  unfold clear_selection_for_mode
  split
  · exact deselect_loop_inv InvB (fun t q ht => InvB_deselect ht q) _ _ _ h
  · exact h

lemma InvB_select_branch {s : SelState} (h : InvB s) {p : Proxy}
    (hp : p ∉ s.selection) : InvB (handle_select_branch s p) := by
  have hclear := InvB_clear h
  have hp2 : p ∉ (clear_selection_for_mode s).selection :=
    fun hx => hp (clear_selection_subset s p hx)
  simp only [handle_select_branch]
  split
  · split
    · split
      · split
        · exact InvB_select hclear hp2
        · split
          · exact InvB_select hclear hp2
          · exact hclear
      · exact InvB_select hclear hp2
    · exact InvB_select hclear hp2
  · exact hclear

lemma InvB_check {s : SelState} (h : InvB s) : InvB (check_for_empty_selection s) := by
  unfold check_for_empty_selection
  split
  · rename_i hcond
    split
    · exact InvB_select_branch h
        (by rw [List.length_eq_zero.mp hcond.2]; simp)
    · exact h
  · exact h

lemma InvB_toggle {s : SelState} (h : InvB s) (p : Proxy) (hold : Bool) :
    InvB (handle_selection s p hold) := by
  have hcore : InvB (handle_selection s p true) := by
    rw [handle_selection_true_eq]
    split
    · exact InvB_select_branch h (by assumption)
    · simp only [handle_deselect_branch]
      split
      · exact InvB_check (InvB_deselect h p)
      · exact InvB_deselect h p
  cases hold
  · exact hcore
  · exact hcore

lemma InvB_step {s : SelState} (op : Op) (hok : flag_safe op = true) (h : InvB s) :
    InvB (apply_op s op) := by
  cases op with
  | toggle p => exact InvB_toggle h p false
  | selectList ps e =>
    have he : e = true := hok
    subst he
    exact foldl_handle_inv InvB (fun t q ht => InvB_toggle ht q true) ps s h
  | deselectList ps =>
    exact foldl_handle_inv InvB (fun t q ht => InvB_toggle ht q true) ps s h
  | setData items => cases hok
  | setMode m => cases hok
  | setAllowEmpty b => cases hok
  | setLimit n => cases hok
  | trimLeft => cases hok
  | trimRight => cases hok
  | trimTo => cases hok
  | cutTo => cases hok

lemma InvA_init (items : List Item) (m : SelMode) (ae : Bool) (L : Int) :
    InvA (initial_state items m ae L false) := by
  unfold initial_state update_for_new_data
  exact InvA_initialize ⟨List.nodup_nil, by simp⟩

lemma InvB_init (items : List Item) (m : SelMode) (ae : Bool) (L : Int) :
    InvB (initial_state items m ae L false) := by
  unfold initial_state update_for_new_data initialize_selection
  have hbase : InvB
      { data := items, selection := [], flagged := [],
        selection_mode := m, allow_empty_selection := ae,
        selection_limit := L, propagate_selection_to_data := false,
        gen := 1, events := 0 } := ⟨List.nodup_nil, List.nodup_nil, by simp⟩
  split
  · rename_i hlen
    exact absurd hlen (by simp)
  · exact InvB_check hbase

/-- C3 (counterexample): data replacement (`setData`) and
`select_list(extend=false)` clear the `selection` list without resetting the
proxies' `is_selected` flags: afterwards proxy(0) still has
`is_selected=true` but is no longer a member of `selection`. -/
theorem claim_C3_counterexample :
    ((⟨1, 0⟩ : Proxy) ∈ (run_ops (initial_state [Item.bare 0]
        SelMode.single true (-1) false)
        [Op.toggle ⟨1, 0⟩, Op.setData [Item.bare 5]]).flagged ∧
      (⟨1, 0⟩ : Proxy) ∉ (run_ops (initial_state [Item.bare 0]
        SelMode.single true (-1) false)
        [Op.toggle ⟨1, 0⟩, Op.setData [Item.bare 5]]).selection) ∧
    ((⟨1, 0⟩ : Proxy) ∈ (run_ops (initial_state [Item.bare 0]
        SelMode.single true (-1) false)
        [Op.toggle ⟨1, 0⟩, Op.selectList [] false]).flagged ∧
      (⟨1, 0⟩ : Proxy) ∉ (run_ops (initial_state [Item.bare 0]
        SelMode.single true (-1) false)
        [Op.toggle ⟨1, 0⟩, Op.selectList [] false]).selection) := by
  decide

/-- C3 (amended): over every history of operations, every member of
`selection` has `is_selected=true`; and over histories consisting of toggles,
`select_list` with `extend=true`, and `deselect_list` (no data replacement,
no `extend=false`), membership in `selection` is exactly equivalent to
`is_selected=true`. -/
theorem claim_C3_amended :
    (∀ (items : List Item) (m : SelMode) (ae : Bool) (L : Int) (ops : List Op),
      ∀ p ∈ (run_ops (initial_state items m ae L false) ops).selection,
        p ∈ (run_ops (initial_state items m ae L false) ops).flagged) ∧
    (∀ (items : List Item) (m : SelMode) (ae : Bool) (L : Int) (ops : List Op),
      (∀ op ∈ ops, flag_safe op = true) →
      ∀ p, p ∈ (run_ops (initial_state items m ae L false) ops).selection ↔
        p ∈ (run_ops (initial_state items m ae L false) ops).flagged) := by
  constructor
  · intro items m ae L ops
    exact (run_ops_inv InvA (fun _ => true) (fun t op _ h => InvA_step op h)
      ops _ (fun _ _ => rfl) (InvA_init items m ae L)).2
  · intro items m ae L ops hok
    exact (run_ops_inv InvB flag_safe (fun t op h hP => InvB_step op h hP)
      ops _ hok (InvB_init items m ae L)).2.2

/-- Witness for C3 (amended) at concrete inputs. -/
theorem claim_C3_witness :
    (⟨1, 0⟩ : Proxy) ∈ (run_ops (initial_state [Item.bare 0, Item.bare 1]
        SelMode.single true (-1) false) [Op.toggle ⟨1, 0⟩]).flagged ∧
    ((⟨1, 1⟩ : Proxy) ∈ (run_ops (initial_state [Item.bare 0, Item.bare 1]
        SelMode.single true (-1) false) [Op.toggle ⟨1, 0⟩]).selection ↔
      (⟨1, 1⟩ : Proxy) ∈ (run_ops (initial_state [Item.bare 0, Item.bare 1]
        SelMode.single true (-1) false) [Op.toggle ⟨1, 0⟩]).flagged) :=
  ⟨claim_C3_amended.1 _ _ _ _ _ _ (by decide),
   claim_C3_amended.2 _ _ _ _ _ (by decide) _⟩
